import Mathlib

/-!
Shallow embedding of the pulsar HTTP client core
(`pulsar/apps/http/__init__.py` and `pulsar/apps/http/stream.py`),
together with theorems settling the frozen claims about it.

Byte strings are modelled as lists of byte values, Python `None` as
`Option`, and the external helper functions that live outside `src/`
(`pulsar.utils.httpurl`, the standard library) carry a
`Modelled from the spec:` doc comment.
-/

namespace Pulsar

/-- Byte strings are modelled as lists of natural numbers (byte values). -/
abbrev Bytes := List Nat

/-- Lower-casing of a string, written as a structural map over the
character list so that concrete instances evaluate inside the kernel. -/
def pyLower (s : String) : String := String.mk (s.data.map Char.toLower)

/-- Upper-casing of a string (`str.upper`), structural like `pyLower`. -/
def pyUpper (s : String) : String := String.mk (s.data.map Char.toUpper)

/-- Python `str.startswith`. -/
def pyStartsWith (s pre : String) : Bool := pre.data.isPrefixOf s.data

/-- Split a character list at every occurrence of a separator character;
`[[]]` for the empty list, mirroring Python `str.split` with one separator. -/
def splitCharAll (sep : Char) (l : List Char) : List (List Char) :=
  l.foldr
    (fun c acc =>
      match acc with
      | [] => [[c]]
      | cur :: rest => if c == sep then [] :: cur :: rest else (c :: cur) :: rest)
    [[]]

/-- Split a character list at the first occurrence of a separator word,
returning the parts before and after it, or nothing when it is absent. -/
def splitFirstAux (sep : List Char) : List Char → Option (List Char × List Char)
  | [] => none
  | c :: cs =>
    if sep.isPrefixOf (c :: cs) then some ([], (c :: cs).drop sep.length)
    else
      match splitFirstAux sep cs with
      | some p => some (c :: p.1, p.2)
      | none => none

/-- Split a string at the first occurrence of a separator; the second
component is empty when the separator is absent. -/
def splitOnce (s sep : String) : String × String :=
  match splitFirstAux sep.data s.data with
  | some p => (String.mk p.1, String.mk p.2)
  | none => (s, "")

/-- Parse a decimal numeral, or nothing when a character is not a digit or
the list is empty. -/
def digitsToNat (l : List Char) : Option Nat :=
  if l.isEmpty then none
  else
    l.foldl
      (fun acc c =>
        match acc with
        | none => none
        | some n => if c.isDigit then some (n * 10 + (c.toNat - 48)) else none)
      (some 0)

/-- Case-insensitive comparison used by the header collection model. -/
def lowerEq (a b : String) : Bool := pyLower a == pyLower b

/-- Modelled from the spec: the `Headers` collection lives in
`pulsar.utils.httpurl`, which is not under `src/`; the spec (section 3)
describes it as an ordered, case-insensitive, multi-valued header
collection. -/
structure Headers where
  entries : List (String × String)
deriving Repr, DecidableEq

/-- Modelled from the spec: `Headers.get` returns the value stored under a
case-insensitive name, or nothing. -/
def Headers.get (h : Headers) (n : String) : Option String :=
  (h.entries.find? (fun e => lowerEq e.1 n)).map (fun e => e.2)

/-- Modelled from the spec: `name in headers` membership, case-insensitive. -/
def Headers.containsName (h : Headers) (n : String) : Bool :=
  h.entries.any (fun e => lowerEq e.1 n)

/-- Modelled from the spec: `headers[name] = value` replaces any value stored
under the same case-insensitive name. -/
def Headers.set (h : Headers) (n v : String) : Headers :=
  ⟨h.entries.filter (fun e => !lowerEq e.1 n) ++ [(n, v)]⟩

/-- Modelled from the spec: `Headers.has(name, value)` checks that the header
collection carries the given value under the given name (`can_reuse_connection`
uses it for the keep-alive signal); names and values compare
case-insensitively. -/
def Headers.hasValue (h : Headers) (n v : String) : Bool :=
  h.entries.any (fun e => lowerEq e.1 n && lowerEq e.2 v)

/-- Modelled from the spec: `Headers.update` stores every entry of the other
collection into this one. -/
def Headers.updateWith (h other : Headers) : Headers :=
  other.entries.foldl (fun acc e => acc.set e.1 e.2) h

/-- Python truthiness of a `Headers` object (empty collections are falsy). -/
def Headers.isEmpty (h : Headers) : Bool := h.entries.isEmpty

/-- The body payload carried by a request: raw bytes, a text string, or a
structured mapping (a list of key/value pairs), the shapes `encode_body`
inspects; the default `data` value `{}` is the empty mapping. -/
inductive PyData where
  | pybytes (bs : Bytes)
  | pystr (s : String)
  | mapping (kvs : List (String × String))
deriving Repr, DecidableEq

/-- Python truthiness of the `data` attribute. -/
def PyData.truthy : PyData → Bool
  | .pybytes bs => !bs.isEmpty
  | .pystr s => !(s == "")
  | .mapping kvs => !kvs.isEmpty

/-- Modelled from the spec: charset encoding of a string (Python
`str.encode`, external); modelled as the sequence of character code points,
which agrees with every single-byte view the claims need. -/
def to_bytes (s : String) (_charset : String) : Bytes :=
  s.data.map (fun c => c.toNat)

/-- Modelled from the spec: `native_str` decoding of a byte string. -/
def bytesToStr (bs : Bytes) : String :=
  String.mk (bs.map (fun n => Char.ofNat n))

/-- Modelled from the spec: `parse_qsl` splits a query string into key/value
pairs (external standard-library helper). -/
def parse_qsl (q : String) : List (String × String) :=
  (splitCharAll '&' q.data).filterMap (fun part =>
    if part.isEmpty then none
    else
      match splitFirstAux ['='] part with
      | none => some (String.mk part, "")
      | some p => some (String.mk p.1, String.mk p.2))

/-- Modelled from the spec: `urlencode` joins pairs as `k=v` separated by
`&` (external standard-library helper). -/
def urlencode (kvs : List (String × String)) : String :=
  String.intercalate "&" (kvs.map (fun e => e.1 ++ "=" ++ e.2))

/-- Modelled from the spec: `json.dumps` on a flat string mapping (external
standard-library helper). -/
def pyJsonDumps (kvs : List (String × String)) : String :=
  "\x7b" ++
    String.intercalate ", "
      (kvs.map (fun e => "\"" ++ e.1 ++ "\": \"" ++ e.2 ++ "\"")) ++ "\x7d"

/-- Modelled from the spec: `encode_multipart_formdata` (in
`pulsar.utils.httpurl`, not under `src/`) serialises a structured mapping as
`multipart/form-data` and returns the body together with the content type
carrying the boundary. -/
def encode_multipart_formdata (kvs : List (String × String))
    (boundary : Option String) (charset : String) : Bytes × String :=
  let b := boundary.getD "pulsar.boundary"
  let parts := kvs.map (fun e =>
    "--" ++ b ++ "\r\nContent-Disposition: form-data; name=\"" ++ e.1 ++
      "\"\r\n\r\n" ++ e.2 ++ "\r\n")
  (to_bytes (String.join parts ++ "--" ++ b ++ "--\r\n") charset,
   "multipart/form-data; boundary=" ++ b)

/-- Modelled from the spec: `ENCODE_URL_METHODS` (in `pulsar.utils.httpurl`,
not under `src/`), the spec's "URL-encoding set" of methods whose data is
folded into the query string: the bodyless HTTP methods. -/
def ENCODE_URL_METHODS : List String := ["DELETE", "GET", "HEAD", "OPTIONS"]

/-- Modelled from the spec: `REDIRECT_CODES` (in `pulsar.utils.httpurl`, not
under `src/`), the set of HTTP redirect status codes the header-complete
handler recognises. -/
def REDIRECT_CODES : List Nat := [301, 302, 303, 307]

/-- The `scheme_host` named tuple stored by `set_proxy`. -/
structure SchemeHost where
  scheme : String
  netloc : String
deriving Repr, DecidableEq

/-- Modelled from the spec: `get_hostport` (in `pulsar.utils.httpurl`, not
under `src/`) splits a netloc into host and port, defaulting the port from
the scheme. -/
def get_hostport (scheme netloc : String) : String × Nat :=
  let dflt := if scheme == "https" || scheme == "wss" then 443 else 80
  match splitCharAll ':' netloc.data with
  | [h, p] => (String.mk h, (digitsToNat p).getD dflt)
  | _ => (netloc, dflt)

/-- Python `max(a, b)` on strings: the second argument exactly when it is
strictly greater, the first on ties. -/
def pyMax (a b : String) : String := if a < b then b else a

/-- The request object of `HttpRequest.__init__`; the fields keep the source
attribute names. `history` entries are opaque (the claims only measure the
list's length), and `parserGen` counts `new_parser` calls so that a parser
reset is observable. -/
structure HttpRequest where
  method : String
  _scheme : String
  _netloc : String
  path : String
  params : String
  query : String
  fragment : String
  host_only : String
  port : Nat
  history : List Unit
  wait_continue : Bool
  max_redirects : Nat
  allow_redirects : Bool
  charset : String
  version : String
  encode_multipart : Bool
  multipart_boundary : Option String
  data : PyData
  files : Option (List (String × String))
  headers : Headers
  unredirected_headers : Headers
  body : Option Bytes
  full_url : String
  parserGen : Nat
  _proxy : Option SchemeHost
deriving Repr, DecidableEq

/-- `HttpRequest.scheme`: with a proxy, `max(self._scheme, self._proxy.scheme)`;
otherwise the origin scheme. -/
def HttpRequest.scheme (r : HttpRequest) : String :=
  match r._proxy with
  | some p => pyMax r._scheme p.scheme
  | none => r._scheme

/-- `HttpRequest.set_proxy(scheme, host)`: re-resolve host and port and store
the `scheme_host` pair. -/
def HttpRequest.set_proxy (r : HttpRequest) (scheme host : String) : HttpRequest :=
  let hp := get_hostport scheme host
  { r with host_only := hp.1, port := hp.2, _proxy := some ⟨scheme, host⟩ }

/-- The pairs `_encode_url` extends the query with: strings and bytes are
parsed as query strings, mappings are iterated. -/
def dataPairs : PyData → List (String × String)
  | .pybytes bs => parse_qsl (bytesToStr bs)
  | .pystr s => parse_qsl s
  | .mapping kvs => kvs

/-- `HttpRequest._encode_url`: fold the body pairs into the query string and
store the combined pair list back into `data`. -/
def HttpRequest.encode_url (r : HttpRequest) (body : PyData) : HttpRequest :=
  if body.truthy then
    let q := parse_qsl r.query ++ dataPairs body
    { r with data := PyData.mapping q, query := urlencode q }
  else
    r

/-- `HttpRequest.encode_body`: the fixed priority chain on method and data
shape. Returns the request after its side effects (dropping `files`, folding
the query, storing the content type) together with the optional body. -/
def HttpRequest.encode_body (r : HttpRequest) : HttpRequest × Option Bytes :=
  if ENCODE_URL_METHODS.contains r.method then
    let r1 := { r with files := none }
    (r1.encode_url r1.data, none)
  else
    match r.data with
    | .pybytes bs => (r, some bs)
    | .pystr s => (r, some (to_bytes s r.charset))
    | .mapping kvs =>
      if (PyData.mapping kvs).truthy then
        match r.headers.get "content-type" with
        | none =>
          if r.encode_multipart then
            let p := encode_multipart_formdata kvs r.multipart_boundary r.charset
            ({ r with headers := r.headers.set "Content-Type" p.2 }, some p.1)
          else
            ({ r with headers :=
                 r.headers.set "Content-Type" "application/x-www-form-urlencoded" },
             some (to_bytes (urlencode kvs) r.charset))
        | some ct =>
          if ct == "application/json" then
            (r, some (to_bytes (pyJsonDumps kvs) r.charset))
          else
            (r, some (to_bytes (pyJsonDumps kvs) r.charset))
      else (r, none)

/-- Modelled from the spec: the standard `urlunparse` composition of URL
parts (external standard-library helper). -/
def urlunparse (scheme netloc path pparams query fragment : String) : String :=
  let url := if pparams == "" then path else path ++ ";" ++ pparams
  let url :=
    if !(netloc == "") || pyStartsWith url "//" then
      "//" ++ netloc ++ (if url == "" || pyStartsWith url "/" then url else "/" ++ url)
    else url
  let url := if scheme == "" then url else scheme ++ ":" ++ url
  let url := if query == "" then url else url ++ "?" ++ query
  if fragment == "" then url else url ++ "#" ++ fragment

/-- `HttpRequest.get_full_url`: compose the origin URL and store it in
`full_url`. -/
def HttpRequest.get_full_url (r : HttpRequest) : HttpRequest × String :=
  let u := urlunparse r._scheme r._netloc r.path r.params r.query r.fragment
  ({ r with full_url := u }, u)

/-- `HttpRequest.first_line`: the request line; without a proxy the URL is
re-composed without scheme and netloc (with `/` for an empty path). -/
def HttpRequest.first_line (r : HttpRequest) : HttpRequest × String :=
  let p := r.get_full_url
  let url :=
    match p.1._proxy with
    | none =>
      urlunparse "" "" (if p.1.path == "" then "/" else p.1.path)
        p.1.params p.1.query p.1.fragment
    | some _ => p.2
  (p.1, p.1.method ++ " " ++ url ++ " " ++ p.1.version)

/-- Modelled from the spec: the wire rendering `bytes(headers)` of a header
collection: one `Name: value` line per entry, CRLF terminated, with a final
blank line. -/
def headersBytes (h : Headers) : Bytes :=
  to_bytes (String.join (h.entries.map (fun e => e.1 ++ ": " ++ e.2 ++ "\r\n"))
    ++ "\r\n") "ascii"

/-- The CRLF separator appended after the request line. -/
def crlf : Bytes := to_bytes "\r\n" "ascii"

/-- `HttpRequest.encode`, kept as the `buffer` list the source builds: the
request line, the CRLF separator, the merged headers, and the body exactly
when it is truthy and not withheld by `wait_continue`. Returns the mutated
request (body stored, content-length and expect headers set, full URL cached)
together with the buffer. -/
def HttpRequest.encodeParts (r0 : HttpRequest) : HttpRequest × List Bytes :=
  let p := r0.encode_body
  let r := { p.1 with body := p.2 }
  let bodyTruthy := match p.2 with | some bs => !bs.isEmpty | none => false
  let r :=
    if bodyTruthy then
      { r with headers := r.headers.set "content-length" (toString ((p.2.getD []).length)) }
    else r
  let sendBody : Option Bytes := if bodyTruthy && r.wait_continue then none else p.2
  let r :=
    if bodyTruthy && r.wait_continue then
      { r with headers := r.headers.set "expect" "100-continue" }
    else r
  let hdrs :=
    if r.unredirected_headers.isEmpty then r.headers
    else r.unredirected_headers.updateWith r.headers
  let fl := r.first_line
  let buffer := [to_bytes fl.2 "ascii", crlf, headersBytes hdrs] ++
    (match sendBody with
     | some bs => if bs.isEmpty then [] else [bs]
     | none => [])
  (fl.1, buffer)

/-- `HttpRequest.encode`: the joined buffer. -/
def HttpRequest.encode (r0 : HttpRequest) : HttpRequest × Bytes :=
  let p := r0.encodeParts
  (p.1, p.2.flatten)

/-- Modelled from the spec: `urlparse` into the six components
(scheme, netloc, path, params, query, fragment); external standard-library
helper, modelled by successive splits. -/
def urlparse6 (url : String) : String × String × String × String × String × String :=
  let p1 := splitOnce url "#"
  let fragment := p1.2
  let p2 := splitOnce p1.1 "?"
  let query := p2.2
  let u := p2.1
  let sr :=
    match splitFirstAux [':', '/', '/'] u.data with
    | some p => (String.mk p.1, "//" ++ String.mk p.2)
    | none => ("", u)
  let scheme := sr.1
  let np :=
    if pyStartsWith sr.2 "//" then
      match splitFirstAux ['/'] (sr.2.data.drop 2) with
      | none => (String.mk (sr.2.data.drop 2), "")
      | some p => (String.mk p.1, "/" ++ String.mk p.2)
    else ("", sr.2)
  let p3 := splitOnce np.2 ";"
  (scheme, np.1, p3.1, p3.2, query, fragment)

/-- Modelled from the spec: the scheme component of a parsed URL. -/
def urlScheme (u : String) : String := (urlparse6 u).1

/-- Modelled from the spec: the netloc component of a parsed URL. -/
def urlNetloc (u : String) : String := (urlparse6 u).2.1

/-- Modelled from the spec: `requote_uri` percent re-encodes a URL for RFC
3986 compliance; on the already-encoded ASCII URLs of this model it is the
identity. -/
def requote_uri (u : String) : String := u

/-- Modelled from the spec: `urljoin` resolves a relative reference against
a base URL (external standard-library helper): root-relative paths keep the
base scheme and netloc, other relative paths replace the last segment. -/
def urljoin (base rel : String) : String :=
  if rel == "" then base
  else if pyStartsWith rel "/" then
    (if urlScheme base == "" then "" else urlScheme base ++ "://") ++
      urlNetloc base ++ rel
  else
    match splitCharAll '/' base.data with
    | [] => rel
    | [b] => String.mk b ++ "/" ++ rel
    | bs => String.intercalate "/" (bs.dropLast.map String.mk) ++ "/" ++ rel

/-- The client configuration the embedded operations read: the default
header set and the cookie-storage flag (`HttpClient.setup`). -/
structure HttpClient where
  headers : Headers
  store_cookies : Bool
  version : String
deriving Repr, DecidableEq

/-- Modelled from the spec: the fixed WebSocket handshake header set
`get_headers` substitutes for `ws`/`wss` requests; the random
`Sec-WebSocket-Key` is modelled as a fixed string. -/
def wsHandshakeHeaders : Headers :=
  ⟨[("Connection", "Upgrade"), ("Upgrade", "websocket"),
    ("Sec-WebSocket-Version", "13"), ("Sec-WebSocket-Key", "wskey"),
    ("user-agent", "Python-httpurl")]⟩

/-- `HttpClient.get_headers`: the default set (or the WebSocket handshake
set) updated with the caller-supplied headers. -/
def HttpClient.get_headers (c : HttpClient) (r : HttpRequest)
    (hs : Option Headers) : Headers :=
  let d := if r.scheme == "ws" || r.scheme == "wss" then wsHandshakeHeaders
    else c.headers
  match hs with
  | some h => d.updateWith h
  | none => d

/-- `HttpRequest.__init__`: parse the URL, resolve host and port (with the
CONNECT netloc fallback), store the carried parameters, and build the header
collection through `client.get_headers`. Absent `data` defaults to the empty
mapping. -/
def HttpRequest.build (client : HttpClient) (url method : String)
    (headers : Option Headers) (data : PyData)
    (files : Option (List (String × String))) (charset : String)
    (encMulti : Bool) (boundary : Option String) (history : List Unit)
    (allowRe : Bool) (maxRe : Nat) (version : String)
    (waitCont : Bool) : HttpRequest :=
  let u := urlparse6 url
  let method := pyUpper method
  let np :=
    if u.2.1 == "" && method == "CONNECT" then (u.2.2.1, "")
    else (u.2.1, u.2.2.1)
  let hp := get_hostport u.1 np.1
  let r0 : HttpRequest :=
    { method := method, _scheme := u.1, _netloc := np.1, path := np.2,
      params := u.2.2.2.1, query := u.2.2.2.2.1, fragment := u.2.2.2.2.2,
      host_only := hp.1, port := hp.2, history := history,
      wait_continue := waitCont, max_redirects := maxRe,
      allow_redirects := allowRe, charset := charset, version := version,
      encode_multipart := encMulti, multipart_boundary := boundary,
      data := data, files := files, headers := ⟨[]⟩,
      unredirected_headers := ⟨[]⟩, body := none, full_url := "",
      parserGen := 0, _proxy := none }
  { r0 with headers := client.get_headers r0 headers }

/-- Models the CPython test `response.status_code is 303` at line 712 of
`HttpClient.request`: an identity comparison, not an equality. The parser
produces a fresh int object for the status code, and CPython only shares int
objects in the small-int cache (-5 to 256), so for 303 the literal and the
parsed status are distinct objects and the test is false even when the value
is 303; the conjunct recording the cache bound makes that explicit. -/
def statusIs303 (n : Nat) : Bool := n == 303 && decide (n ≤ 256)

/-- The state a consumer is in when `_handle_headers` runs: the current
request, the parsed status code and headers, the parser's message-complete
flag, and the owning client. -/
structure ConsumerState where
  client : HttpClient
  request : HttpRequest
  status_code : Nat
  headers : Headers
  message_complete : Bool
deriving Repr, DecidableEq

/-- The follow-up branch of `HttpClient.request` (a `response` is given):
carry the previous request's parameters forward, append the hop to the
history, and apply the 303 special case through the `is` test the source
uses; parameters the 303 case pops fall back to the `__init__` defaults. -/
def HttpClient.requestFollow (c : HttpClient) (method url : String)
    (st : ConsumerState) : HttpRequest :=
  let prev := st.request
  let history := prev.history ++ [()]
  let is303 := statusIs303 st.status_code
  let method := if is303 then "GET" else method
  let data := if is303 then PyData.mapping [] else prev.data
  let files := if is303 then none else prev.files
  HttpRequest.build c url method (some prev.headers) data files prev.charset
    prev.encode_multipart prev.multipart_boundary history prev.allow_redirects
    prev.max_redirects prev.version prev.wait_continue

/-- What `_handle_headers` returned: a follow-up exchange from
`client.request` (truthy), `True` after a 100-continue, the upgrade
dispatch result, or `None`. -/
inductive HandleOutcome where
  | followUp (req : HttpRequest)
  | continue100
  | upgraded (proto : Option String)
  | fallThrough
deriving Repr, DecidableEq

/-- Python truthiness of the `_handle_headers` return value inside
`data_received`. -/
def HandleOutcome.truthy : HandleOutcome → Bool
  | .fallThrough => false
  | _ => true

/-- The observable effects of one `_handle_headers` call: its return value,
the consumer's request after side effects (the parser reset), the
`transport.write` calls it performed, and whether cookies were extracted. -/
structure HandleEffects where
  outcome : HandleOutcome
  request : HttpRequest
  writes : List (Option Bytes)
  cookiesExtracted : Bool
deriving Repr, DecidableEq

/-- The exception kinds the embedded control flow can raise. -/
inductive HttpClientError where
  | tooManyRedirects
deriving Repr, DecidableEq

/-- `HttpResponse._handle_headers`: extract cookies, then dispatch on the
status code — redirect (with location resolution and the `max_redirects`
bound), 100-continue (parser reset and a single write of the withheld body),
or 101 upgrade. -/
def handle_headers (st : ConsumerState) :
    Except HttpClientError HandleEffects :=
  let request := st.request
  let headers := st.headers
  let cookies := st.client.store_cookies && headers.containsName "set-cookie"
  if REDIRECT_CODES.contains st.status_code && headers.containsName "location"
      && request.allow_redirects && st.message_complete then
    let url := (headers.get "location").getD ""
    let url := if pyStartsWith url "//" then urlScheme request.full_url ++ ":" ++ url
      else url
    let url := if urlNetloc url == "" then urljoin request.full_url (requote_uri url)
      else url
    if request.history.length ≥ request.max_redirects then
      .error .tooManyRedirects
    else
      let url := if url == "" then request.full_url else url
      .ok { outcome := .followUp (st.client.requestFollow request.method url st),
            request := request, writes := [], cookiesExtracted := cookies }
  else if st.status_code == 100 then
    .ok { outcome := .continue100,
          request := { request with parserGen := request.parserGen + 1 },
          writes := [request.body], cookiesExtracted := cookies }
  else if st.status_code == 101 then
    .ok { outcome := .upgraded (headers.get "upgrade"), request := request,
          writes := [], cookiesExtracted := cookies }
  else
    .ok { outcome := .fallThrough, request := request, writes := [],
          cookiesExtracted := cookies }

/-- What one `data_received` call did. -/
inductive RecvResult where
  | protocolError
  | handled (eff : HandleEffects)
  | finished (eff : Option HandleEffects)
  | pending (eff : Option HandleEffects)
deriving Repr, DecidableEq

/-- `HttpResponse.data_received` control flow over the parser's observable
flags: a consumed-length mismatch is a protocol error; on the first
transition to headers-complete the header handler runs, and a truthy result
returns early (the exchange continues on the same consumer); otherwise a
complete message finishes the exchange. -/
def data_received (st : ConsumerState)
    (hadHeaders headersComplete messageComplete consumedAll : Bool) :
    Except HttpClientError RecvResult :=
  if !consumedAll then .ok .protocolError
  else if headersComplete then
    if !hadHeaders then
      match handle_headers st with
      | .error e => .error e
      | .ok eff =>
        if eff.outcome.truthy then .ok (.handled eff)
        else if messageComplete then .ok (.finished (some eff))
        else .ok (.pending (some eff))
    else
      if messageComplete then .ok (.finished none)
      else .ok (.pending none)
  else .ok (.pending none)

/-- The `HttpStream` state: the detached-connection slot, the chunk queue,
the buffered body available from `recv_body`, and the owning response's
headers-complete and done flags. -/
structure HttpStreamS where
  conn : Option Unit
  queue : List Bytes
  bodyBuffered : Bytes
  headersComplete : Bool
  responseDone : Bool
deriving Repr, DecidableEq

/-- `HttpStream.__call__`: once the connection slot is empty and headers are
complete, drain `recv_body` into the queue. -/
def streamCall (s : HttpStreamS) : HttpStreamS :=
  if s.conn.isNone && s.headersComplete then
    { s with queue := s.queue ++ [s.bodyBuffered], bodyBuffered := [] }
  else s

/-- How one run of the `HttpStream.__iter__` generator ends. -/
inductive IterResult where
  | consumedError
  | finite (chunks : List Bytes)
  | suspended
deriving Repr, DecidableEq

/-- `HttpStream.__iter__`: an empty connection slot raises
`StreamConsumedError`; otherwise the slot is cleared, `self(response)` runs,
and when the response is done the queue is drained to exhaustion (a finite
sequence); a not-yet-done response suspends awaiting the next chunk. -/
def iterStream (s : HttpStreamS) : HttpStreamS × IterResult :=
  match s.conn with
  | none => (s, .consumedError)
  | some _ =>
    let s1 := { s with conn := none }
    let s2 := streamCall s1
    if s2.responseDone then ({ s2 with queue := [] }, .finite s2.queue)
    else (s2, .suspended)

/-- `HttpStream.connection`: detach the connection from the pool and store it
in the slot. -/
def streamConnection (s : HttpStreamS) : HttpStreamS := { s with conn := some () }

/-- `HttpStream.__init__`: empty slot, empty queue. -/
def mkStream (headersComplete responseDone : Bool) : HttpStreamS :=
  { conn := none, queue := [], bodyBuffered := [],
    headersComplete := headersComplete, responseDone := responseDone }

/-- `HttpClient.can_reuse_connection` looks at a possibly-absent response
whose `headers` view is absent until the parser has completed them. -/
structure HttpResponseView where
  headers : Option Headers
deriving Repr, DecidableEq

/-- `HttpClient.can_reuse_connection`: reuse only if the response is present,
its headers are parsed (and truthy, mirroring `if response and
response.headers:`), and they carry the keep-alive signal. -/
def HttpClient.can_reuse_connection (_c : HttpClient) (_connection : Option Unit)
    (response : Option HttpResponseView) : Bool :=
  match response with
  | some r =>
    match r.headers with
    | some hs => if hs.isEmpty then false else hs.hasValue "connection" "keep-alive"
    | none => false
  | none => false

/-! Helper lemmas about the header model and the string maximum. -/

theorem lowerEq_iff (a b : String) : lowerEq a b = true ↔ pyLower a = pyLower b := by
  simp [lowerEq]

theorem Headers.get_set_agree (h : Headers) (n m v : String)
    (hnm : pyLower n = pyLower m) : (h.set m v).get n = some v := by
  unfold Headers.set Headers.get
  rw [List.find?_append]
  have h1 : (h.entries.filter (fun e => !lowerEq e.1 m)).find?
      (fun e => lowerEq e.1 n) = none := by
    rw [List.find?_eq_none]
    intro x hx hpx
    rcases List.mem_filter.mp hx with ⟨-, hq⟩
    have hxm : lowerEq x.1 m = true := by
      rw [lowerEq_iff] at hpx ⊢
      rw [hpx, hnm]
    simp [hxm] at hq
  have h2 : ([(m, v)].find? (fun e => lowerEq e.1 n)) = some (m, v) := by
    have : lowerEq m n = true := by
      rw [lowerEq_iff, hnm]
    simp [List.find?_cons_of_pos, this]
  rw [h1, h2]
  rfl

theorem Headers.get_set_other (h : Headers) (n m v : String)
    (hnm : pyLower n ≠ pyLower m) : (h.set m v).get n = h.get n := by
  unfold Headers.set Headers.get
  rw [List.find?_append]
  have h2 : ([(m, v)].find? (fun e => lowerEq e.1 n)) = none := by
    have : lowerEq m n = false := by
      cases hc : lowerEq m n
      · rfl
      · exact absurd ((lowerEq_iff m n).mp hc).symm hnm
    simp [this]
  have h1 : (h.entries.filter (fun e => !lowerEq e.1 m)).find?
      (fun e => lowerEq e.1 n) = h.entries.find? (fun e => lowerEq e.1 n) := by
    rw [List.find?_filter]
    congr 1
    funext a
    cases ha : lowerEq a.1 n
    · simp
    · have ham : lowerEq a.1 m = false := by
        cases hc : lowerEq a.1 m
        · rfl
        · have := ((lowerEq_iff a.1 n).mp ha).symm.trans ((lowerEq_iff a.1 m).mp hc)
          exact absurd this hnm
      simp [ham]
  rw [h1, h2]
  cases h.entries.find? (fun e => lowerEq e.1 n) <;> rfl

theorem pyMax_eq_max (a b : String) : pyMax a b = max a b := by
  unfold pyMax
  rcases lt_trichotomy a b with h | h | h
  · rw [if_pos h, max_eq_right h.le]
  · subst h
    rw [if_neg (lt_irrefl a), max_self]
  · rw [if_neg (not_lt.mpr h.le), max_eq_left h.le]

/-! Concrete sample data used by the witnesses. -/

/-- Default-like header set for the sample client. -/
def baseHeaders : Headers :=
  ⟨[("Connection", "Keep-Alive"), ("user-agent", "Python-httpurl")]⟩

/-- Sample client configuration. -/
def baseClient : HttpClient :=
  { headers := baseHeaders, store_cookies := true, version := "HTTP/1.1" }

/-- Sample POST request with a structured body. -/
def baseReq : HttpRequest :=
  HttpRequest.build baseClient "http://example.com/path?x=1" "POST" none
    (PyData.mapping [("a", "b")]) none "utf-8" true (some "bnd") [] true 10
    "HTTP/1.1" false

/-! Claim C9. -/

/-- Claim C9: with a proxy set through `set_proxy`, the `scheme` property is
the lexicographically greater of the origin scheme and the proxy scheme;
without a proxy it is the origin scheme unchanged. -/
theorem scheme_lexicographic_max (r : HttpRequest) (ps host : String) :
    (r.set_proxy ps host).scheme = max r._scheme ps ∧
    (r._proxy = none → r.scheme = r._scheme) := by
  constructor
  · show pyMax r._scheme ps = max r._scheme ps
    exact pyMax_eq_max _ _
  · intro h
    unfold HttpRequest.scheme
    rw [h]

/-- Witness for claim C9 at a concrete request. -/
theorem scheme_lexicographic_max_witness :
    baseReq._proxy = none ∧
    (baseReq.set_proxy "https" "proxy.example.com:3128").scheme =
      max baseReq._scheme "https" ∧
    baseReq.scheme = baseReq._scheme :=
  ⟨by decide, (scheme_lexicographic_max baseReq "https" "proxy.example.com:3128").1,
   (scheme_lexicographic_max baseReq "https" "proxy.example.com:3128").2 (by decide)⟩

/-! Claim C3. -/

/-- Claim C3: `can_reuse_connection` returns true exactly when the response
is present, its headers are parsed, and those headers carry a `Connection`
header whose value is `keep-alive`; it is false for an absent response,
absent headers, or any other value. -/
theorem can_reuse_connection_iff (c : HttpClient) (conn : Option Unit)
    (resp : Option HttpResponseView) :
    c.can_reuse_connection conn resp = true ↔
    ∃ r hs e, resp = some r ∧ r.headers = some hs ∧ e ∈ hs.entries ∧
      pyLower e.1 = "connection" ∧ pyLower e.2 = "keep-alive" := by
  constructor
  · intro h
    cases resp with
    | none => exact absurd h (by simp [HttpClient.can_reuse_connection])
    | some r =>
      unfold HttpClient.can_reuse_connection at h
      dsimp only at h
      rcases hhs : r.headers with - | hs
      · rw [hhs] at h
        exact absurd h (by simp)
      · rw [hhs] at h
        dsimp only at h
        by_cases he : hs.isEmpty = true
        · rw [if_pos he] at h
          exact absurd h (by simp)
        · rw [if_neg he] at h
          unfold Headers.hasValue at h
          rcases List.any_eq_true.mp h with ⟨e, hmem, hpe⟩
          simp only [Bool.and_eq_true] at hpe
          rcases hpe with ⟨h1, h2⟩
          refine ⟨r, hs, e, rfl, hhs, hmem, ?_, ?_⟩
          · have := (lowerEq_iff e.1 "connection").mp h1
            rw [this]
            decide
          · have := (lowerEq_iff e.2 "keep-alive").mp h2
            rw [this]
            decide
  · rintro ⟨r, hs, e, hr, hhs, hmem, h1, h2⟩
    subst hr
    unfold HttpClient.can_reuse_connection
    dsimp only
    rw [hhs]
    dsimp only
    have hne : hs.isEmpty = false := by
      unfold Headers.isEmpty
      cases hl : hs.entries
      · rw [hl] at hmem; exact absurd hmem (List.not_mem_nil e)
      · rfl
    rw [hne]
    simp only [Bool.false_eq_true, if_false]
    unfold Headers.hasValue
    refine List.any_eq_true.mpr ⟨e, hmem, ?_⟩
    simp only [Bool.and_eq_true]
    constructor
    · rw [lowerEq_iff, h1]; decide
    · rw [lowerEq_iff, h2]; decide

/-! Claims C7 and C8: the streaming body. -/

theorem streamCall_conn (x : HttpStreamS) : (streamCall x).conn = x.conn := by
  unfold streamCall
  split <;> rfl

theorem iterStream_none (s : HttpStreamS) (hs : s.conn = none) :
    iterStream s = (s, .consumedError) := by
  unfold iterStream
  rw [hs]

theorem iterStream_clears_conn (t : HttpStreamS) (u : Unit)
    (hu : t.conn = some u) : ((iterStream t).1).conn = none := by
  unfold iterStream
  rw [hu]
  dsimp only
  split
  · show (streamCall { t with conn := none }).conn = none
    rw [streamCall_conn]
  · show (streamCall { t with conn := none }).conn = none
    rw [streamCall_conn]

/-- Claim C7: iterating a stream whose connection slot is empty — because
`connection` was never called, or because a previous iteration already
started and cleared the slot — raises `StreamConsumedError`. -/
theorem iter_empty_slot_raises (s t : HttpStreamS)
    (hs : s.conn = none) (ht : t.conn.isSome = true) :
    (iterStream s).2 = .consumedError ∧
    (iterStream ((iterStream t).1)).2 = .consumedError := by
  constructor
  · rw [iterStream_none s hs]
  · rcases Option.isSome_iff_exists.mp ht with ⟨u, hu⟩
    rw [iterStream_none _ (iterStream_clears_conn t u hu)]

/-- Witness for claim C7 at concrete streams. -/
theorem iter_empty_slot_raises_witness :
    (mkStream true true).conn = none ∧
    (streamConnection (mkStream true true)).conn.isSome = true ∧
    (iterStream (mkStream true true)).2 = .consumedError ∧
    (iterStream ((iterStream (streamConnection (mkStream true true))).1)).2 =
      .consumedError :=
  ⟨rfl, rfl,
   (iter_empty_slot_raises (mkStream true true) (streamConnection (mkStream true true))
     rfl rfl).1,
   (iter_empty_slot_raises (mkStream true true) (streamConnection (mkStream true true))
     rfl rfl).2⟩

/-- Counterexample for claim C8: after a full first iteration of an attached,
finished stream, the second iteration ends in `StreamConsumedError`, not in
the empty finite sequence the claim promises. -/
theorem second_iteration_cex :
    (iterStream ((iterStream (streamConnection
        { mkStream true true with queue := [[104]] })).1)).2 = .consumedError ∧
    (iterStream ((iterStream (streamConnection
        { mkStream true true with queue := [[104]] })).1)).2 ≠
      IterResult.finite [] := by
  constructor
  · rfl
  · decide

/-- Claim C8 as amended: iterating a second time after full consumption also
fails with `StreamConsumedError` at the second pass's precondition check
(the first iteration cleared the connection slot), exactly as iterating when
the connection was never attached does. -/
theorem second_iteration_raises (t : HttpStreamS) (ht : t.conn.isSome = true) :
    (iterStream ((iterStream t).1)).2 = .consumedError ∧
    (∀ s : HttpStreamS, s.conn = none → (iterStream s).2 = .consumedError) := by
  constructor
  · rcases Option.isSome_iff_exists.mp ht with ⟨u, hu⟩
    rw [iterStream_none _ (iterStream_clears_conn t u hu)]
  · intro s hs
    rw [iterStream_none s hs]

/-- Witness for the amended claim C8 at a concrete stream. -/
theorem second_iteration_raises_witness :
    (streamConnection (mkStream true true)).conn.isSome = true ∧
    (iterStream ((iterStream (streamConnection (mkStream true true))).1)).2 =
      .consumedError ∧
    (iterStream (mkStream true true)).2 = .consumedError :=
  ⟨rfl,
   (second_iteration_raises (streamConnection (mkStream true true)) rfl).1,
   (second_iteration_raises (streamConnection (mkStream true true)) rfl).2
     (mkStream true true) rfl⟩

/-! Claim C1: the 303 special case of `HttpClient.request`. -/

theorem statusIs303_false (n : Nat) : statusIs303 n = false := by
  unfold statusIs303
  cases h : (n == 303)
  · rfl
  · simp only [beq_iff_eq] at h
    subst h
    rfl

/-- Claim C1 (code bug): the source guards the 303 special case of
`HttpClient.request` with the identity test `response.status_code is 303`,
which is false in CPython for a parser-produced 303 (outside the small-int
cache), so even at status 303 the follow-up request keeps the original
method, data and files instead of being forced to GET with no body. -/
theorem follow_up_keeps_method_on_303 (c : HttpClient) (m url : String)
    (st : ConsumerState) (_h : st.status_code = 303) :
    (c.requestFollow m url st).method = pyUpper m ∧
    (c.requestFollow m url st).data = st.request.data ∧
    (c.requestFollow m url st).files = st.request.files := by
  unfold HttpClient.requestFollow
  rw [statusIs303_false]
  unfold HttpRequest.build
  dsimp only
  exact ⟨rfl, rfl, rfl⟩

/-- Sample consumer state at the failing input of claim C1: a 303 response
(location present, message complete) to the sample POST carrying data. -/
def st303 : ConsumerState :=
  { client := baseClient, request := baseReq, status_code := 303,
    headers := ⟨[("Location", "http://example.com/next")]⟩,
    message_complete := true }

/-- Witness for claim C1 at the failing input: the follow-up of the 303
response re-issues POST and carries the original structured data forward. -/
theorem follow_up_keeps_method_on_303_witness :
    st303.status_code = 303 ∧
    (baseClient.requestFollow "POST" "http://example.com/next" st303).method =
      pyUpper "POST" ∧
    (baseClient.requestFollow "POST" "http://example.com/next" st303).data =
      PyData.mapping [("a", "b")] ∧
    (baseClient.requestFollow "POST" "http://example.com/next" st303).files = none :=
  have h := follow_up_keeps_method_on_303 baseClient "POST"
    "http://example.com/next" st303 rfl
  ⟨rfl, h.1, h.2.1.trans (by decide), h.2.2.trans (by decide)⟩

/-! Claim C2: the redirect bound. -/

/-- Claim C2: at header-complete handling of a redirect response (redirect
status, location present, redirects allowed, message complete), a follow-up
request is started exactly when the history length is still strictly below
`max_redirects`; once the history length has reached `max_redirects` the hop
fails with `TooManyRedirects` and no follow-up is produced. -/
theorem redirect_hop_bound (st : ConsumerState)
    (hcode : REDIRECT_CODES.contains st.status_code = true)
    (hloc : st.headers.containsName "location" = true)
    (hallow : st.request.allow_redirects = true)
    (hmc : st.message_complete = true) :
    (st.request.history.length < st.request.max_redirects →
      ∃ eff req, handle_headers st = .ok eff ∧ eff.outcome = .followUp req) ∧
    (st.request.max_redirects ≤ st.request.history.length →
      handle_headers st = .error .tooManyRedirects) := by
  unfold handle_headers
  dsimp only
  rw [hcode, hloc, hallow, hmc]
  simp only [Bool.and_self, Bool.true_and, if_true]
  constructor
  · intro hlt
    rw [if_neg (not_le.mpr hlt)]
    exact ⟨_, _, rfl, rfl⟩
  · intro hge
    rw [if_pos hge]

/-- Sample consumer state for a 302 redirect with free redirect budget. -/
def stRedirect : ConsumerState :=
  { client := baseClient, request := baseReq, status_code := 302,
    headers := ⟨[("Location", "http://example.com/next")]⟩,
    message_complete := true }

/-- Sample consumer state whose request history has already reached the
redirect maximum. -/
def stRedirectMax : ConsumerState :=
  { stRedirect with request := { baseReq with history := List.replicate 10 () } }

/-- Witness for claim C2 at two concrete states: one hop below the bound
starts a follow-up, one hop at the bound fails with `TooManyRedirects`. -/
theorem redirect_hop_bound_witness :
    (REDIRECT_CODES.contains stRedirect.status_code = true ∧
     stRedirect.headers.containsName "location" = true ∧
     stRedirect.request.allow_redirects = true ∧
     stRedirect.message_complete = true ∧
     stRedirect.request.history.length < stRedirect.request.max_redirects) ∧
    (∃ eff req, handle_headers stRedirect = .ok eff ∧
      eff.outcome = .followUp req) ∧
    (stRedirectMax.request.max_redirects ≤
       stRedirectMax.request.history.length) ∧
    handle_headers stRedirectMax = .error .tooManyRedirects :=
  ⟨⟨by decide, by decide, by decide, rfl, by decide⟩,
   (redirect_hop_bound stRedirect (by decide) (by decide) (by decide) rfl).1
     (by decide),
   by decide,
   (redirect_hop_bound stRedirectMax (by decide) (by decide) (by decide) rfl).2
     (by decide)⟩

/-! Claim C6: the 100-continue hop. -/

/-- Claim C6: when a status-100 response reaches header-complete handling,
the parser is reset, the withheld body is written exactly once (a single
`transport.write` of `request.body`), the request's headers are untouched
(no second Expect negotiation), and the outcome is the truthy `True` return,
so `data_received` returns early on the same consumer without starting a
follow-up request or finishing the exchange. -/
theorem continue_single_write (st : ConsumerState) (h : st.status_code = 100) :
    ∃ eff, handle_headers st = .ok eff ∧
      eff.outcome = .continue100 ∧
      eff.writes = [st.request.body] ∧
      eff.request = { st.request with parserGen := st.request.parserGen + 1 } ∧
      eff.request.headers = st.request.headers ∧
      (∀ mc : Bool, data_received st false true mc true = .ok (.handled eff)) := by
  have hc : REDIRECT_CODES.contains st.status_code = false := by
    rw [h]; decide
  have h100 : (st.status_code == 100) = true := by
    rw [h]; decide
  have heq : handle_headers st = .ok
      { outcome := .continue100,
        request := { st.request with parserGen := st.request.parserGen + 1 },
        writes := [st.request.body],
        cookiesExtracted :=
          st.client.store_cookies && st.headers.containsName "set-cookie" } := by
    unfold handle_headers
    rw [hc]
    simp only [Bool.false_and, Bool.false_eq_true, if_false, h100, if_true]
  refine ⟨_, heq, rfl, rfl, rfl, rfl, ?_⟩
  intro mc
  unfold data_received
  rw [heq]
  rfl

/-- Sample consumer state for a 100-continue response. -/
def st100 : ConsumerState :=
  { client := baseClient,
    request := { baseReq with wait_continue := true, body := some [104, 105] },
    status_code := 100, headers := ⟨[]⟩, message_complete := false }

/-- Witness for claim C6 at a concrete 100-continue state. -/
theorem continue_single_write_witness :
    st100.status_code = 100 ∧
    ∃ eff, handle_headers st100 = .ok eff ∧
      eff.outcome = .continue100 ∧
      eff.writes = [st100.request.body] ∧
      eff.request = { st100.request with parserGen := st100.request.parserGen + 1 } ∧
      eff.request.headers = st100.request.headers ∧
      (∀ mc : Bool, data_received st100 false true mc true = .ok (.handled eff)) :=
  ⟨rfl, continue_single_write st100 rfl⟩

/-! Claim C4: the `encode_body` priority chain. -/

theorem encode_url_truthy (r : HttpRequest) (body : PyData)
    (ht : body.truthy = true) :
    r.encode_url body =
      { r with data := PyData.mapping (parse_qsl r.query ++ dataPairs body),
               query := urlencode (parse_qsl r.query ++ dataPairs body) } := by
  unfold HttpRequest.encode_url
  rw [ht, if_pos rfl]

theorem encode_url_falsy (r : HttpRequest) (body : PyData)
    (ht : body.truthy = false) : r.encode_url body = r := by
  unfold HttpRequest.encode_url
  rw [ht, if_neg Bool.false_ne_true]

/-- Claim C4: `encode_body` follows a fixed priority chain — a method in the
URL-encoding set folds the data into the query string and carries no body
(files are dropped); otherwise raw bytes pass through unchanged and string
data is encoded with the request charset; otherwise a non-empty structured
mapping with no explicit content type is encoded as multipart/form-data when
`encode_multipart` is enabled and as application/x-www-form-urlencoded
otherwise, and the Content-Type header is set to the chosen encoding. -/
theorem encode_body_priority (r : HttpRequest) :
    (ENCODE_URL_METHODS.contains r.method = true →
      (r.encode_body).2 = none ∧
      (r.encode_body).1.files = none ∧
      (r.data.truthy = true →
        (r.encode_body).1.query =
          urlencode (parse_qsl r.query ++ dataPairs r.data) ∧
        (r.encode_body).1.data =
          PyData.mapping (parse_qsl r.query ++ dataPairs r.data)) ∧
      (r.data.truthy = false → (r.encode_body).1.query = r.query)) ∧
    (ENCODE_URL_METHODS.contains r.method = false →
      (∀ bs, r.data = .pybytes bs → r.encode_body = (r, some bs)) ∧
      (∀ s, r.data = .pystr s →
        r.encode_body = (r, some (to_bytes s r.charset))) ∧
      (∀ kvs, r.data = .mapping kvs → kvs ≠ [] →
        r.headers.get "content-type" = none →
        (r.encode_multipart = true →
          (r.encode_body).2 =
            some (encode_multipart_formdata kvs r.multipart_boundary r.charset).1 ∧
          (r.encode_body).1.headers.get "content-type" =
            some ("multipart/form-data; boundary=" ++
              (r.multipart_boundary.getD "pulsar.boundary"))) ∧
        (r.encode_multipart = false →
          (r.encode_body).2 = some (to_bytes (urlencode kvs) r.charset) ∧
          (r.encode_body).1.headers.get "content-type" =
            some "application/x-www-form-urlencoded"))) := by
  constructor
  · intro hm
    have hif : r.encode_body =
        (HttpRequest.encode_url { r with files := none } r.data, none) := by
      unfold HttpRequest.encode_body
      rw [hm, if_pos rfl]
    rw [hif]
    cases ht : r.data.truthy
    · rw [encode_url_falsy _ _ ht]
      exact ⟨rfl, rfl, fun h => absurd h (by decide), fun _ => rfl⟩
    · rw [encode_url_truthy _ _ ht]
      exact ⟨rfl, rfl, fun _ => ⟨rfl, rfl⟩, fun h => absurd h (by decide)⟩
  · intro hm
    refine ⟨?_, ?_, ?_⟩
    · intro bs hd
      unfold HttpRequest.encode_body
      rw [hm, if_neg Bool.false_ne_true, hd]
    · intro s hd
      unfold HttpRequest.encode_body
      rw [hm, if_neg Bool.false_ne_true, hd]
    · intro kvs hd hne hct
      have htr : (PyData.mapping kvs).truthy = true := by
        unfold PyData.truthy
        cases kvs
        · exact absurd rfl hne
        · rfl
      constructor
      · intro hmul
        have heq : r.encode_body =
            ({ r with
                headers := r.headers.set "Content-Type"
                  (encode_multipart_formdata kvs r.multipart_boundary r.charset).2 },
              some (encode_multipart_formdata kvs r.multipart_boundary r.charset).1)
            := by
          unfold HttpRequest.encode_body
          rw [hm, if_neg Bool.false_ne_true, hd]
          dsimp only
          rw [htr, if_pos rfl, hct]
          dsimp only
          rw [hmul, if_pos rfl]
        rw [heq]
        refine ⟨rfl, ?_⟩
        show (r.headers.set "Content-Type" _).get "content-type" = _
        rw [Headers.get_set_agree r.headers "content-type" "Content-Type" _
          (by decide)]
        rfl
      · intro hmul
        have heq : r.encode_body =
            ({ r with
                headers := r.headers.set "Content-Type"
                  "application/x-www-form-urlencoded" },
              some (to_bytes (urlencode kvs) r.charset)) := by
          unfold HttpRequest.encode_body
          rw [hm, if_neg Bool.false_ne_true, hd]
          dsimp only
          rw [htr, if_pos rfl, hct]
          dsimp only
          rw [hmul, if_neg Bool.false_ne_true]
        rw [heq]
        refine ⟨rfl, ?_⟩
        show (r.headers.set "Content-Type" _).get "content-type" = _
        rw [Headers.get_set_agree r.headers "content-type" "Content-Type" _
          (by decide)]

/-- Witness for claim C4: the URL-encoding branch on a GET carrying data,
and the multipart branch on the sample POST. -/
theorem encode_body_priority_witness :
    (ENCODE_URL_METHODS.contains
       ({ baseReq with method := "GET" } : HttpRequest).method = true ∧
     (({ baseReq with method := "GET" } : HttpRequest).encode_body).2 = none ∧
     (({ baseReq with method := "GET" } : HttpRequest).encode_body).1.files
       = none) ∧
    (ENCODE_URL_METHODS.contains baseReq.method = false ∧
     baseReq.data = PyData.mapping [("a", "b")] ∧
     baseReq.headers.get "content-type" = none ∧
     baseReq.encode_multipart = true ∧
     (baseReq.encode_body).1.headers.get "content-type" =
       some ("multipart/form-data; boundary=" ++
         (baseReq.multipart_boundary.getD "pulsar.boundary"))) :=
  ⟨⟨by decide,
    ((encode_body_priority { baseReq with method := "GET" }).1 (by decide)).1,
    ((encode_body_priority { baseReq with method := "GET" }).1 (by decide)).2.1⟩,
   ⟨by decide, by decide, by decide, by decide,
    ((((encode_body_priority baseReq).2 (by decide)).2.2 [("a", "b")]
        (by decide) (by decide) (by decide)).1 (by decide)).2⟩⟩

/-! Claim C10: the JSON fallback for explicit non-JSON content types. -/

/-- Claim C10: a request with a non-empty structured mapping and an explicit
content type different from application/json still has its data serialised
as JSON with the request charset — the same body bytes as for an explicit
application/json content type — and the request, its content-type header
included, is left unchanged. -/
theorem encode_body_json_fallback (r : HttpRequest)
    (kvs : List (String × String)) (ct : String)
    (hm : ENCODE_URL_METHODS.contains r.method = false)
    (hd : r.data = .mapping kvs) (hne : kvs ≠ [])
    (hct : r.headers.get "content-type" = some ct)
    (hjson : ct ≠ "application/json") :
    r.encode_body = (r, some (to_bytes (pyJsonDumps kvs) r.charset)) ∧
    (HttpRequest.encode_body
        { r with headers := r.headers.set "content-type" "application/json" }).2
      = (r.encode_body).2 := by
  have htr : (PyData.mapping kvs).truthy = true := by
    unfold PyData.truthy
    cases kvs
    · exact absurd rfl hne
    · rfl
  have hctb : (ct == "application/json") = false := by
    cases hc : (ct == "application/json")
    · rfl
    · simp only [beq_iff_eq] at hc
      exact absurd hc hjson
  have h1 : r.encode_body = (r, some (to_bytes (pyJsonDumps kvs) r.charset)) := by
    unfold HttpRequest.encode_body
    rw [hm, if_neg Bool.false_ne_true, hd]
    dsimp only
    rw [htr, if_pos rfl, hct]
    dsimp only
    rw [hctb, if_neg Bool.false_ne_true]
  refine ⟨h1, ?_⟩
  have h2 : (HttpRequest.encode_body
      { r with headers := r.headers.set "content-type" "application/json" }).2 =
      some (to_bytes (pyJsonDumps kvs) r.charset) := by
    unfold HttpRequest.encode_body
    rw [hm, if_neg Bool.false_ne_true, hd]
    dsimp only
    rw [htr, if_pos rfl]
    rw [Headers.get_set_agree r.headers "content-type" "content-type"
      "application/json" rfl]
    rfl
  rw [h1, h2]

/-- Sample request carrying an explicit text/plain content type. -/
def reqTextPlain : HttpRequest :=
  { baseReq with headers := ⟨[("Content-Type", "text/plain")]⟩ }

/-- Witness for claim C10 at the text/plain sample request. -/
theorem encode_body_json_fallback_witness :
    ENCODE_URL_METHODS.contains reqTextPlain.method = false ∧
    reqTextPlain.data = PyData.mapping [("a", "b")] ∧
    reqTextPlain.headers.get "content-type" = some "text/plain" ∧
    reqTextPlain.encode_body =
      (reqTextPlain,
       some (to_bytes (pyJsonDumps [("a", "b")]) reqTextPlain.charset)) :=
  ⟨by decide, by decide, by decide,
   (encode_body_json_fallback reqTextPlain [("a", "b")] "text/plain"
     (by decide) (by decide) (by decide) (by decide) (by decide)).1⟩

/-! Claim C5: `encode` sets content-length and withholds the body under
`wait_continue`. -/

theorem encode_body_wait_continue (r : HttpRequest) :
    (r.encode_body).1.wait_continue = r.wait_continue := by
  unfold HttpRequest.encode_body HttpRequest.encode_url
  dsimp only
  repeat' split
  all_goals rfl

/-- Claim C5: whenever `encode_body` produces a (truthy) body, `encode` sets
the `content-length` header to the body's byte length; when `wait_continue`
is additionally set it sets the `Expect: 100-continue` header and omits the
body from the encoded wire buffer (the buffer keeps only the request line,
the separator and the headers). -/
theorem encode_expect_continue (r : HttpRequest) (bs : Bytes)
    (hb : (r.encode_body).2 = some bs) (hne : bs ≠ []) :
    (r.encode).1.headers.get "content-length" = some (toString bs.length) ∧
    (r.wait_continue = true →
      (r.encode).1.headers.get "expect" = some "100-continue" ∧
      (r.encodeParts).2.length = 3) := by
  have hw := encode_body_wait_continue r
  have hbe : bs.isEmpty = false := by
    cases bs
    · exact absurd rfl hne
    · rfl
  unfold HttpRequest.encode HttpRequest.encodeParts
  dsimp only
  rw [hb]
  dsimp only
  rw [hbe]
  simp only [Bool.not_false, if_true]
  rw [hw]
  cases hwc : r.wait_continue
  · simp only [Bool.and_false, if_false]
    constructor
    · show ((r.encode_body).1.headers.set "content-length" _).get
        "content-length" = _
      rw [Headers.get_set_agree _ "content-length" "content-length" _ rfl]
      rfl
    · intro hcontra
      exact absurd hcontra (by decide)
  · simp only [Bool.and_true, if_true]
    refine ⟨?_, fun _ => ⟨?_, ?_⟩⟩
    · show (((r.encode_body).1.headers.set "content-length" _).set
        "expect" "100-continue").get "content-length" = _
      rw [Headers.get_set_other _ "content-length" "expect" _ (by decide)]
      rw [Headers.get_set_agree _ "content-length" "content-length" _ rfl]
      rfl
    · show (((r.encode_body).1.headers.set "content-length" _).set
        "expect" "100-continue").get "expect" = _
      rw [Headers.get_set_agree _ "expect" "expect" _ rfl]
    · rfl

/-- Sample request with raw byte data and `wait_continue` set. -/
def reqWaitContinue : HttpRequest :=
  { baseReq with data := PyData.pybytes [104, 105], wait_continue := true }

/-- Witness for claim C5 at the `wait_continue` sample request. -/
theorem encode_expect_continue_witness :
    (reqWaitContinue.encode_body).2 = some [104, 105] ∧
    reqWaitContinue.wait_continue = true ∧
    (reqWaitContinue.encode).1.headers.get "content-length" =
      some (toString ([104, 105] : Bytes).length) ∧
    (reqWaitContinue.encode).1.headers.get "expect" = some "100-continue" ∧
    (reqWaitContinue.encodeParts).2.length = 3 :=
  have h := encode_expect_continue reqWaitContinue [104, 105] (by decide)
    (by decide)
  ⟨by decide, rfl, h.1, (h.2 rfl).1, (h.2 rfl).2⟩

end Pulsar
